import Mathlib

/-!
Shallow embedding of the `arrow-cast-guess-precision` crate (`src/lib.rs`,
`build.rs`): a precision-guessing heuristic for integer-to-timestamp casts
and the cast dispatcher built around the external `arrow_cast` collaborator.

Arrays are modelled as a logical `DataType` together with a list of optional
elements; integer-kind and timestamp elements carry a mathematical integer
(the stored 64-bit count), string/binary elements carry a string.  The
external `arrow_cast` library is modelled by `arrow_cast_ext` for exactly the
type pairs the dispatcher exercises; the dispatcher itself
(`cast_with_options`) is a line-by-line translation of the Rust source, with
a fuel parameter that bounds the depth of its self-invocations (the Rust
recursion at lines 210 and 234 of `src/lib.rs`).
-/

inductive TimeUnit
  | Second
  | Millisecond
  | Microsecond
  | Nanosecond
deriving DecidableEq

inductive DataType
  | Null
  | Int8
  | Int16
  | Int32
  | Int64
  | UInt8
  | UInt16
  | UInt32
  | UInt64
  | Float16
  | Float32
  | Float64
  | Utf8
  | LargeUtf8
  | Binary
  | LargeBinary
  | FixedSizeBinary (n : Int)
  | Timestamp (unit : TimeUnit) (tz : Option String)
deriving DecidableEq

/-- Element payload of a modelled array: numeric/timestamp arrays hold 64-bit
integer counts, string/binary arrays hold text. -/
inductive Value
  | int (v : Int)
  | str (s : String)
deriving DecidableEq

/-- An arrow array: a logical type plus the element slots (`none` is a null
slot). -/
structure ArrowArray where
  dtype : DataType
  values : List (Option Value)
deriving DecidableEq

def ArrowArray.len (a : ArrowArray) : Nat := a.values.length

def ArrowArray.nullCount (a : ArrowArray) : Nat :=
  a.values.countP (fun ov => ov.isNone)

/-- Models `arrow_array::new_empty_array`. -/
def new_empty_array (t : DataType) : ArrowArray := ⟨t, []⟩

/-- Models `arrow_array::new_null_array`. -/
def new_null_array (t : DataType) (n : Nat) : ArrowArray :=
  ⟨t, List.replicate n none⟩

/-- Build-time guessing bound: `build.rs` generates `GUESSING_BOUND_YEARS`
from the `ARROW_CAST_GUESSING_BOUND_YEARS` environment variable, defaulting
to `1000`. -/
def GUESSING_BOUND_YEARS : Int := 1000

def LOWER_BOUND_MILLIS : Int := 86400 * 365 * GUESSING_BOUND_YEARS

def LOWER_BOUND_MICROS : Int := 1000 * 86400 * 365 * GUESSING_BOUND_YEARS

def LOWER_BOUND_NANOS : Int := 1000 * 1000 * 86400 * 365 * GUESSING_BOUND_YEARS

def i64Min : Int := -(2 ^ 63)

def i64Max : Int := 2 ^ 63 - 1

/-- Rust's `i64::abs` overflows exactly at `i64::MIN`; with overflow checks
enabled (the crate's own debug/test profile) that overflow is a panic. -/
def rustAbsOverflows (t : Int) : Bool := decide (t = i64Min)

/-- Rust's `i64::abs` under the release profile (overflow checks off): the
two's-complement negation wraps, so `i64::MIN.abs()` yields `i64::MIN`
itself; every other input yields the mathematical absolute value. -/
def rustAbsWrapping (t : Int) : Int :=
  if t = i64Min then i64Min else (t.natAbs : Int)

/-- Translation of `guess_precision` in `src/lib.rs` (lines 85-98): compare
the absolute value against the three derived thresholds, finest first, with
strict greater-than. -/
def guess_precision (timestamp : Int) : TimeUnit :=
  let t := rustAbsWrapping timestamp
  if t > LOWER_BOUND_NANOS then .Nanosecond
  else if t > LOWER_BOUND_MICROS then .Microsecond
  else if t > LOWER_BOUND_MILLIS then .Millisecond
  else .Second

def isIntValue : Value → Bool
  | .int _ => true
  | .str _ => false

def isStrValue : Value → Bool
  | .str _ => true
  | .int _ => false

/-- Which payload kind an element of a given logical type carries in this
model: string/binary types carry text, every other modelled type carries an
integer count. -/
def valueOkFor (t : DataType) : Value → Bool :=
  match t with
  | .Utf8 | .LargeUtf8 | .Binary | .LargeBinary | .FixedSizeBinary _ => isStrValue
  | _ => isIntValue

/-- An array is well formed when every non-null slot carries the payload kind
of its logical type. -/
def wellFormed (a : ArrowArray) : Bool :=
  a.values.all (fun ov => ov.all (valueOkFor a.dtype))

/-- Decode the slots of an array as 64-bit integers; fails (models the
downcast panic) when a slot carries a non-integer payload. -/
def intValuesOf : List (Option Value) → Option (List (Option Int))
  | [] => some []
  | none :: rest => (intValuesOf rest).map (fun l => none :: l)
  | some (.int v) :: rest => (intValuesOf rest).map (fun l => some v :: l)
  | some (.str _) :: _ => none

/-- Models `array.as_any().downcast_ref::<Int64Array>().unwrap()` inside
`guess_precision_in_array`: succeeds exactly when the array's logical type is
`Int64` (with integer payloads); `none` models the unwrap panic. -/
def downcastInt64 (a : ArrowArray) : Option (List (Option Int)) :=
  if a.dtype = .Int64 then intValuesOf a.values else none

/-- Translation of `guess_precision_in_array` (lines 103-107): downcast to
`Int64Array`, take the first non-null element in index order, and guess its
precision.  The outer `Option` models the unwrap: `none` is the downcast
panic, `some g` is the function's `Option<TimeUnit>` result `g`. -/
def guess_precision_in_array (a : ArrowArray) : Option (Option TimeUnit) :=
  (downcastInt64 a).map fun vs => ((vs.filterMap id).head?).map guess_precision

/-- Translation of `TimestampCastOptions` (lines 113-121). -/
structure TimestampCastOptions where
  guess_timestamp_precision : Bool
  use_timezone_as_is : Bool
deriving DecidableEq

/-- Default `TimestampCastOptions` (lines 123-130): both flags true. -/
def TimestampCastOptions.default : TimestampCastOptions := ⟨true, true⟩

/-- Translation of `CastOptions` (lines 132-136); the `format_options` field
is forwarded verbatim to the external caster and carries no behaviour in
this model, so it is omitted. -/
structure CastOptions where
  safe : Bool
  timestamp_options : TimestampCastOptions
deriving DecidableEq

/-- `CastOptions::new` / `CastOptions::default` (lines 138-152):
`safe = true`, guessing enabled, timezone used as-is. -/
def CastOptions.new : CastOptions := ⟨true, TimestampCastOptions.default⟩

/-- Outcome of a dispatcher call: a produced array, a propagated
`ArrowError`, or a panic (the `unwrap` in `guess_precision_in_array`). -/
inductive CastOutcome
  | ok (array : ArrowArray)
  | error (msg : String)
  | panic (msg : String)
deriving DecidableEq

def CastOutcome.isPanic : CastOutcome → Bool
  | .panic _ => true
  | _ => false

def outcomeOf : Except String ArrowArray → CastOutcome
  | .ok a => .ok a
  | .error e => .error e

def digitVal (c : Char) : Option Nat :=
  if c.isDigit then some (c.toNat - 48) else none

def digitsToNat : List Char → Nat → Option Nat
  | [], acc => some acc
  | c :: cs, acc =>
    match digitVal c with
    | some d => digitsToNat cs (acc * 10 + d)
    | none => none

def parseNatDigits (cs : List Char) : Option Nat :=
  match cs with
  | [] => none
  | _ => digitsToNat cs 0

/-- Modelled behavior of the external arrow-cast string-to-integer
conversion (Rust `str::parse::<i64>` semantics): an optional sign followed
by at least one decimal digit, range-checked against the i64 domain. -/
def parseI64String (s : String) : Option Int :=
  match s.data with
  | '+' :: rest =>
    (parseNatDigits rest).bind fun n =>
      if (n : Int) ≤ i64Max then some (n : Int) else none
  | '-' :: rest =>
    (parseNatDigits rest).bind fun n =>
      if i64Min ≤ -(n : Int) then some (-(n : Int)) else none
  | cs =>
    (parseNatDigits cs).bind fun n =>
      if (n : Int) ≤ i64Max then some (n : Int) else none

/-- Modelled behavior of the external arrow-cast string-to-timestamp parser.
Arrow accepts RFC3339-style datetime literals, which begin with a
`YYYY-MM-DD` date; this model checks that leading shape.  The numeric value
produced for an accepted literal is not inspected by any theorem in this
development (the dispatcher only branches on whether parsing succeeded), so
an accepted literal is mapped to the count 0. -/
def parseTimestampString (s : String) : Option Int :=
  match s.data with
  | y1 :: y2 :: y3 :: y4 :: d1 :: m1 :: m2 :: d2 :: dd1 :: dd2 :: _ =>
    if y1.isDigit && y2.isDigit && y3.isDigit && y4.isDigit && (d1 == '-') &&
        m1.isDigit && m2.isDigit && (d2 == '-') && dd1.isDigit && dd2.isDigit
    then some 0 else none
  | _ => none

/-- Element-wise string conversion under a parser `p`: a null slot stays
null, a string slot becomes the parsed integer, and (for ill-typed slots,
which a well-formed string array never contains) anything else fails. -/
def parseStringElem (p : String → Option Int) (ov : Option Value) : Option Value :=
  match ov with
  | some (.str s) => (p s).map Value.int
  | _ => none

/-- Modelled behavior of the external arrow-cast string-array conversion:
with `safe = true` every unparsable element becomes null; with
`safe = false` any unparsable non-null element raises an error. -/
def castStringArrayWith (p : String → Option Int) (safe : Bool) (toType : DataType)
    (a : ArrowArray) : Except String ArrowArray :=
  if safe then .ok ⟨toType, a.values.map (parseStringElem p)⟩
  else if a.values.any (fun ov => ov.isSome && (parseStringElem p ov).isNone) then
    .error "Cast error: cannot parse string"
  else .ok ⟨toType, a.values.map (parseStringElem p)⟩

def u64ToI64Elem (ov : Option Value) : Option Value :=
  match ov with
  | some (.int v) => if v ≤ i64Max then some (.int v) else none
  | _ => none

/-- Modelled behavior of the external arrow-cast `UInt64 → Int64`
conversion: values above `i64::MAX` become null (`safe = true`) or raise an
error (`safe = false`). -/
def u64ToI64 (safe : Bool) (a : ArrowArray) : Except String ArrowArray :=
  if safe then .ok ⟨.Int64, a.values.map u64ToI64Elem⟩
  else if a.values.any (fun ov => ov.isSome && (u64ToI64Elem ov).isNone) then
    .error "Cast error: value out of range"
  else .ok ⟨.Int64, a.values.map u64ToI64Elem⟩

/-- Subunits per second of a time unit. -/
def timeUnitFactor : TimeUnit → Int
  | .Second => 1
  | .Millisecond => 1000
  | .Microsecond => 1000000
  | .Nanosecond => 1000000000

/-- Modelled behavior of the external arrow-cast timestamp unit rescaling:
multiply when moving to a finer unit, divide (truncating toward zero, as
Rust integer division does) when moving to a coarser one.  Every value this
development evaluates stays well inside the i64 range, so exact integer
arithmetic models the collaborator faithfully there. -/
def rescaleTimestamp (u1 u2 : TimeUnit) (v : Int) : Int :=
  if timeUnitFactor u1 ≤ timeUnitFactor u2 then
    v * (timeUnitFactor u2 / timeUnitFactor u1)
  else
    Int.tdiv v (timeUnitFactor u1 / timeUnitFactor u2)

def mapIntValue (f : Int → Int) : Value → Value
  | .int v => .int (f v)
  | v => v

/-- Model of the external collaborator `arrow_cast::cast_with_options`
(`arrow_cast::cast` is the same with `safe = true`), restricted to the type
pairs this crate's dispatcher exercises: identity, integer widening,
`UInt64 → Int64`, `Int64 → Timestamp` reinterpretation, timestamp unit
rescaling, and string parsing to `Int64` or `Timestamp`.  Every other pair
is reported as an error; the dispatcher propagates collaborator errors
unchanged, so unmodelled pairs never reach a conclusion of this
development's theorems. -/
def arrow_cast_ext (a : ArrowArray) (toType : DataType) (safe : Bool) :
    Except String ArrowArray :=
  if a.dtype = toType then .ok a
  else
    match a.dtype, toType with
    | .Int8, .Int64 | .Int16, .Int64 | .Int32, .Int64
    | .UInt8, .Int64 | .UInt16, .Int64 | .UInt32, .Int64 =>
      .ok ⟨.Int64, a.values⟩
    | .UInt64, .Int64 => u64ToI64 safe a
    | .Int64, .Timestamp u tz => .ok ⟨.Timestamp u tz, a.values⟩
    | .Timestamp u1 _, .Timestamp u2 tz2 =>
      .ok ⟨.Timestamp u2 tz2,
        a.values.map (Option.map (mapIntValue (rescaleTimestamp u1 u2)))⟩
    | .Utf8, .Int64 | .LargeUtf8, .Int64 =>
      castStringArrayWith parseI64String safe .Int64 a
    | .Utf8, .Timestamp u tz | .LargeUtf8, .Timestamp u tz =>
      castStringArrayWith parseTimestampString safe (.Timestamp u tz) a
    | _, _ => .error "Cast not modelled"

/-- Source-type class of the first dispatcher match arm (line 184): narrow
numerics destined for `Timestamp`. -/
def DataType.isNarrowToTs : DataType → Bool
  | .Int8 | .Int16 | .Int32 | .UInt8 | .UInt32 | .Float16 | .Float32 | .UInt16 => true
  | _ => false

/-- Source-type class of the second dispatcher match arm (line 202). -/
def DataType.isStringOrBinary : DataType → Bool
  | .Binary | .FixedSizeBinary _ | .LargeBinary | .Utf8 | .LargeUtf8 => true
  | _ => false

/-- Source-type class of the third dispatcher match arm (line 216): wide
numerics destined for `Timestamp`. -/
def DataType.isWideToTs : DataType → Bool
  | .Int64 | .UInt64 | .Float64 => true
  | _ => false

/-- Timezone resolution shared by the timestamp arms (lines 187-191 and
219-223). -/
def resolveTz (opts : CastOptions) (tz : Option String) : Option String :=
  if opts.timestamp_options.use_timezone_as_is then tz else none

/-- Translation of the narrow-numeric arm (lines 182-200): widen to `Int64`,
reinterpret at `Second` (guessing on) or at the declared unit (guessing
off), then cast to the exact requested type. -/
def narrowBranch (array : ArrowArray) (unit : TimeUnit) (tz : Option String)
    (to_type : DataType) (opts : CastOptions) : Option CastOutcome :=
  match arrow_cast_ext array .Int64 true with
  | .error e => some (.error e)
  | .ok arr =>
    match arrow_cast_ext arr
        (if opts.timestamp_options.guess_timestamp_precision
          then .Timestamp .Second (resolveTz opts tz)
          else .Timestamp unit (resolveTz opts tz)) true with
    | .error e => some (.error e)
    | .ok arr2 => some (outcomeOf (arrow_cast_ext arr2 to_type opts.safe))

/-- Translation of the string/binary arm (lines 202-215): try the standard
conversion; if its result is entirely null and the source reinterprets as
`Int64` with at least one non-null value, re-dispatch the integer array
(`recur` is the dispatcher at one less fuel). -/
def stringBranch (recur : ArrowArray → DataType → CastOptions → Option CastOutcome)
    (array : ArrowArray) (to_type : DataType) (opts : CastOptions) :
    Option CastOutcome :=
  match arrow_cast_ext array to_type opts.safe with
  | .error e => some (.error e)
  | .ok string_to_ts =>
    if string_to_ts.nullCount = string_to_ts.len then
      match arrow_cast_ext array .Int64 opts.safe with
      | .ok arr =>
        if arr.nullCount < arr.len then recur arr to_type opts
        else some (.ok string_to_ts)
      | .error _ => some (.ok string_to_ts)
    else some (.ok string_to_ts)

/-- Translation of the wide-numeric arm (lines 216-237).  With guessing
enabled, guess the unit from the first non-null element (falling back to the
declared unit), reinterpret, then cast to the requested type.  With guessing
disabled, the Rust source at line 234 calls the crate's own `cast` — which
re-enters the dispatcher with the DEFAULT options (guessing enabled) — and
then casts to the requested type. -/
def wideBranch (recur : ArrowArray → DataType → CastOptions → Option CastOutcome)
    (array : ArrowArray) (unit : TimeUnit) (tz : Option String)
    (to_type : DataType) (opts : CastOptions) : Option CastOutcome :=
  match arrow_cast_ext array .Int64 true with
  | .error e => some (.error e)
  | .ok arr =>
    if opts.timestamp_options.guess_timestamp_precision then
      match guess_precision_in_array arr with
      | none => some (.panic "downcast_ref::<Int64Array>().unwrap() failed")
      | some guessed =>
        match arrow_cast_ext arr (.Timestamp (guessed.getD unit) (resolveTz opts tz)) true with
        | .error e => some (.error e)
        | .ok arr2 => some (outcomeOf (arrow_cast_ext arr2 to_type opts.safe))
    else
      match recur arr (.Timestamp unit (resolveTz opts tz)) CastOptions.new with
      | none => none
      | some (.ok arr2) => some (outcomeOf (arrow_cast_ext arr2 to_type opts.safe))
      | some r => some r

/-- Translation of `cast_with_options` (lines 163-240).  The fuel bounds the
depth of dispatcher self-invocations (line 210's recursion and line 234's
call of the crate's `cast`); `none` means the fuel was exhausted before the
call completed. -/
def cast_with_options : Nat → ArrowArray → DataType → CastOptions → Option CastOutcome
  | 0, _, _, _ => none
  | fuel + 1, array, to_type, cast_options =>
    if array.dtype = to_type then some (.ok array)
    else if array.len = 0 then some (.ok (new_empty_array to_type))
    else if array.dtype = .Null then some (.ok (new_null_array to_type array.len))
    else if array.dtype.isStringOrBinary then
      stringBranch (cast_with_options fuel) array to_type cast_options
    else
      match to_type with
      | .Timestamp unit tz =>
        if array.dtype.isNarrowToTs then
          narrowBranch array unit tz (.Timestamp unit tz) cast_options
        else if array.dtype.isWideToTs then
          wideBranch (cast_with_options fuel) array unit tz (.Timestamp unit tz)
            cast_options
        else some (outcomeOf (arrow_cast_ext array to_type cast_options.safe))
      | _ => some (outcomeOf (arrow_cast_ext array to_type cast_options.safe))

/-- Translation of the public `cast` entry point (lines 109-111): dispatch
with the default configuration. -/
def Crate.cast (fuel : Nat) (array : ArrowArray) (to_type : DataType) : Option CastOutcome :=
  cast_with_options fuel array to_type CastOptions.new

/-! ## Helper lemmas -/

theorem outcomeOf_not_panic (e : Except String ArrowArray) :
    (outcomeOf e).isPanic = false := by
  cases e <;> rfl

theorem intValuesOf_replicate (n : Nat) (v : Int) :
    intValuesOf (List.replicate n (some (.int v))) = some (List.replicate n (some v)) := by
  induction n with
  | zero => rfl
  | succ m ih => simp [List.replicate_succ, intValuesOf, ih]

theorem countP_isNone_replicate_none (n : Nat) :
    (List.replicate (α := Option Value) n none).countP (fun ov => ov.isNone) = n := by
  induction n with
  | zero => rfl
  | succ m ih => simp [List.replicate_succ, List.countP_cons, ih]

theorem map_eq_replicate_none (f : Option Value → Option Value)
    (l : List (Option Value)) (h : ∀ x ∈ l, f x = none) :
    l.map f = List.replicate l.length none := by
  induction l with
  | nil => rfl
  | cons x xs ih =>
    simp only [List.map_cons, List.length_cons, List.replicate_succ]
    rw [h x (by simp), ih (fun y hy => h y (by simp [hy]))]

theorem parseStringElem_all_int (p : String → Option Int) (ov : Option Value) :
    (parseStringElem p ov).all isIntValue = true := by
  match ov with
  | none => rfl
  | some (.int _) => rfl
  | some (.str s) =>
    simp only [parseStringElem]
    cases hps : p s <;> simp [isIntValue]

theorem u64ToI64Elem_all_int (ov : Option Value) :
    (u64ToI64Elem ov).all isIntValue = true := by
  match ov with
  | none => rfl
  | some (.str _) => rfl
  | some (.int v) =>
    simp only [u64ToI64Elem]
    split <;> simp [isIntValue]

theorem wellFormed_int64 (l : List (Option Value)) :
    wellFormed ⟨.Int64, l⟩ = true ↔ ∀ ov ∈ l, ov.all isIntValue = true := by
  simp [wellFormed, valueOkFor, List.all_eq_true]

theorem wellFormed_int64_map (f : Option Value → Option Value)
    (l : List (Option Value)) (h : ∀ ov, (f ov).all isIntValue = true) :
    wellFormed ⟨.Int64, l.map f⟩ = true := by
  rw [wellFormed_int64]
  intro ov hov
  obtain ⟨x, _, rfl⟩ := List.mem_map.mp hov
  exact h x

theorem intValuesOf_isSome (vals : List (Option Value))
    (h : ∀ ov ∈ vals, ov.all isIntValue = true) :
    ∃ l, intValuesOf vals = some l := by
  induction vals with
  | nil => exact ⟨[], rfl⟩
  | cons ov rest ih =>
    obtain ⟨l, hl⟩ := ih (fun x hx => h x (by simp [hx]))
    match ov, h ov (by simp) with
    | none, _ => exact ⟨none :: l, by simp [intValuesOf, hl]⟩
    | some (.int v), _ => exact ⟨some v :: l, by simp [intValuesOf, hl]⟩
    | some (.str s), hh => simp [Option.all, isIntValue] at hh

theorem downcastInt64_of_wf (a : ArrowArray) (hd : a.dtype = .Int64)
    (hwf : wellFormed a = true) : ∃ l, downcastInt64 a = some l := by
  obtain ⟨dt, vals⟩ := a
  simp only at hd
  subst hd
  obtain ⟨l, hl⟩ := intValuesOf_isSome vals ((wellFormed_int64 vals).mp hwf)
  exact ⟨l, by simp [downcastInt64, hl]⟩

theorem castStringArrayWith_ok (p : String → Option Int) (safe : Bool)
    (t : DataType) (a : ArrowArray) (b : ArrowArray)
    (h : castStringArrayWith p safe t a = .ok b) :
    b = ⟨t, a.values.map (parseStringElem p)⟩ := by
  unfold castStringArrayWith at h
  split at h
  · cases h
    rfl
  · split at h
    · cases h
    · cases h
      rfl

theorem u64ToI64_ok (safe : Bool) (a : ArrowArray) (b : ArrowArray)
    (h : u64ToI64 safe a = .ok b) :
    b = ⟨.Int64, a.values.map u64ToI64Elem⟩ := by
  unfold u64ToI64 at h
  split at h
  · cases h
    rfl
  · split at h
    · cases h
    · cases h
      rfl

/-- Every successful conversion to `Int64` performed through the external
caster yields an `Int64`-typed, well-formed array: the invariant behind the
unchecked downcast inside `guess_precision_in_array`. -/
theorem arrow_cast_ext_to_int64 (a : ArrowArray) (safe : Bool) (b : ArrowArray)
    (hwf : wellFormed a = true) (h : arrow_cast_ext a .Int64 safe = .ok b) :
    b.dtype = .Int64 ∧ wellFormed b = true := by
  obtain ⟨dt, vals⟩ := a
  cases dt <;> simp only [arrow_cast_ext, reduceIte, reduceCtorEq] at h
  all_goals first
    | (cases h
       exact ⟨rfl, hwf⟩)
    | (rw [u64ToI64_ok safe _ b h]
       exact ⟨rfl, wellFormed_int64_map _ _ u64ToI64Elem_all_int⟩)
    | (rw [castStringArrayWith_ok _ safe _ _ b h]
       exact ⟨rfl, wellFormed_int64_map _ _ (parseStringElem_all_int _)⟩)

theorem narrowBranch_no_panic (a : ArrowArray) (u : TimeUnit) (tz : Option String)
    (t : DataType) (opts : CastOptions) (r : CastOutcome)
    (h : narrowBranch a u tz t opts = some r) : r.isPanic = false := by
  unfold narrowBranch at h
  split at h
  · cases h
    rfl
  · split at h
    · cases h
      rfl
    · cases h
      exact outcomeOf_not_panic _

theorem stringBranch_no_panic
    (recur : ArrowArray → DataType → CastOptions → Option CastOutcome)
    (hrec : ∀ a' t' o' r', wellFormed a' = true → recur a' t' o' = some r' →
      r'.isPanic = false)
    (a : ArrowArray) (t : DataType) (opts : CastOptions) (r : CastOutcome)
    (hwf : wellFormed a = true) (h : stringBranch recur a t opts = some r) :
    r.isPanic = false := by
  unfold stringBranch at h
  split at h
  · cases h
    rfl
  · split at h
    · split at h
      case h_1 arr heq =>
        split at h
        · obtain ⟨_, hwf2⟩ := arrow_cast_ext_to_int64 a opts.safe arr hwf heq
          exact hrec arr t opts r hwf2 h
        · cases h
          rfl
      case h_2 =>
        cases h
        rfl
    · cases h
      rfl

theorem wideBranch_no_panic
    (recur : ArrowArray → DataType → CastOptions → Option CastOutcome)
    (hrec : ∀ a' t' o' r', wellFormed a' = true → recur a' t' o' = some r' →
      r'.isPanic = false)
    (a : ArrowArray) (u : TimeUnit) (tz : Option String) (t : DataType)
    (opts : CastOptions) (r : CastOutcome)
    (hwf : wellFormed a = true) (h : wideBranch recur a u tz t opts = some r) :
    r.isPanic = false := by
  unfold wideBranch at h
  split at h
  · cases h
    rfl
  case h_2 arr heq =>
    obtain ⟨hdt, hwf2⟩ := arrow_cast_ext_to_int64 a true arr hwf heq
    split at h
    · split at h
      case h_1 heq2 =>
        obtain ⟨l, hl⟩ := downcastInt64_of_wf arr hdt hwf2
        rw [guess_precision_in_array, hl] at heq2
        cases heq2
      case h_2 guessed heq2 =>
        split at h
        · cases h
          rfl
        · cases h
          exact outcomeOf_not_panic _
    · rcases hrr : recur arr (.Timestamp u (resolveTz opts tz)) CastOptions.new with _ | r2
      · rw [hrr] at h
        cases h
      · rw [hrr] at h
        have hr2 : r2.isPanic = false := hrec _ _ _ _ hwf2 hrr
        rcases r2 with arr2 | e | m
        · dsimp only at h
          cases h
          exact outcomeOf_not_panic _
        · dsimp only at h
          cases h
          rfl
        · dsimp only at h
          cases h
          exact hr2

/-! ## Claim theorems -/

/-- C3: the claim asserts `guess_precision` is total over all of i64 with no
overflow panic in its absolute-value computation.  The code computes
`timestamp.abs()`, and Rust's `i64::abs` overflows exactly at `i64::MIN`:
with overflow checks enabled (the crate's own debug/test profile) that is a
panic, contradicting the claim; with them disabled the value wraps to
`i64::MIN` itself and the comparisons classify it as `Second`. -/
theorem guess_precision_abs_overflow_at_i64_min :
    rustAbsOverflows i64Min = true ∧ guess_precision i64Min = TimeUnit.Second := by
  constructor <;> decide

/-- C4: every i64 value whose absolute value is at most `LOWER_BOUND_MILLIS`
is classified `Second`, and the three comparisons are strict greater-than
applied finest-bound first: a value exactly at a bound resolves to the
coarser unit, the value one past it to the finer one. -/
theorem guess_precision_threshold_behavior :
    (∀ t : Int, i64Min ≤ t → t ≤ i64Max → (t.natAbs : Int) ≤ LOWER_BOUND_MILLIS →
      guess_precision t = TimeUnit.Second) ∧
    guess_precision LOWER_BOUND_MILLIS = TimeUnit.Second ∧
    guess_precision (-LOWER_BOUND_MILLIS) = TimeUnit.Second ∧
    guess_precision (LOWER_BOUND_MILLIS + 1) = TimeUnit.Millisecond ∧
    guess_precision LOWER_BOUND_MICROS = TimeUnit.Millisecond ∧
    guess_precision (LOWER_BOUND_MICROS + 1) = TimeUnit.Microsecond ∧
    guess_precision LOWER_BOUND_NANOS = TimeUnit.Microsecond ∧
    guess_precision (LOWER_BOUND_NANOS + 1) = TimeUnit.Nanosecond := by
  refine ⟨?_, by decide, by decide, by decide, by decide, by decide, by decide, by decide⟩
  intro t _ _ h3
  have ht : t ≠ i64Min := by
    intro h
    rw [h] at h3
    revert h3
    decide
  unfold guess_precision rustAbsWrapping
  rw [if_neg ht]
  have h1 : ¬ ((t.natAbs : Int) > LOWER_BOUND_NANOS) := by
    simp only [LOWER_BOUND_MILLIS, LOWER_BOUND_NANOS, GUESSING_BOUND_YEARS] at h3 ⊢
    omega
  have h2 : ¬ ((t.natAbs : Int) > LOWER_BOUND_MICROS) := by
    simp only [LOWER_BOUND_MILLIS, LOWER_BOUND_MICROS, GUESSING_BOUND_YEARS] at h3 ⊢
    omega
  have h4 : ¬ ((t.natAbs : Int) > LOWER_BOUND_MILLIS) := by omega
  rw [if_neg h1, if_neg h2, if_neg h4]

theorem guess_precision_threshold_behavior_witness :
    (i64Min ≤ (5 : Int) ∧ (5 : Int) ≤ i64Max ∧ (((5 : Int).natAbs : Int) ≤ LOWER_BOUND_MILLIS)) ∧
    guess_precision 5 = TimeUnit.Second :=
  ⟨⟨by decide, by decide, by decide⟩,
    guess_precision_threshold_behavior.1 5 (by decide) (by decide) (by decide)⟩

/-- C1 (refuted as stated): with `guess_timestamp_precision = false`, casting
an `Int64` array to `Timestamp(Nanosecond, None)` is claimed to reinterpret
the stored values at the declared unit unchanged.  The guess-disabled arm at
line 234 of `src/lib.rs` instead calls the crate's own `cast`, which uses the
DEFAULT options — guessing enabled — so the value `1701325744956` is
classified as milliseconds and scaled by `10^6` even though guessing was
disabled and the requested unit equals the declared unit. -/
theorem guess_disabled_still_guesses_on_int64 :
    cast_with_options 2 ⟨.Int64, [some (.int 1701325744956)]⟩
        (.Timestamp .Nanosecond none) ⟨true, ⟨false, true⟩⟩ =
      some (.ok ⟨.Timestamp .Nanosecond none, [some (.int 1701325744956000000)]⟩) ∧
    (1701325744956000000 : Int) ≠ 1701325744956 := by
  constructor
  · rfl
  · decide

/-- C6 (refuted as stated): the claim bounds the string-fallback recursion to
exactly one extra dispatcher level with no further self-invocation beneath
it.  With `guess_timestamp_precision = false` the re-dispatched integer array
enters the wide-numeric guess-disabled arm, whose line-234 call of the
crate's own `cast` is a second dispatcher self-invocation: fuel that permits
one extra level (2) is exhausted, while fuel permitting two extra levels (3)
completes. -/
theorem string_fallback_recursion_depth_two :
    cast_with_options 2 ⟨.Utf8, [some (.str "1701325744956")]⟩
        (.Timestamp .Nanosecond none) ⟨true, ⟨false, true⟩⟩ = none ∧
    cast_with_options 3 ⟨.Utf8, [some (.str "1701325744956")]⟩
        (.Timestamp .Nanosecond none) ⟨true, ⟨false, true⟩⟩ =
      some (.ok ⟨.Timestamp .Nanosecond none, [some (.int 1701325744956000000)]⟩) := by
  constructor
  · rfl
  · rfl

/-- C8: when the source logical type equals the target type the dispatcher
returns the input array unchanged (the identity law; `make_array(to_data())`
is a shallow copy). -/
theorem cast_identity_law (fuel : Nat) (a : ArrowArray) (to_type : DataType)
    (opts : CastOptions) (h : a.dtype = to_type) :
    cast_with_options (fuel + 1) a to_type opts = some (.ok a) := by
  unfold cast_with_options
  simp [h]

theorem cast_identity_law_witness :
    cast_with_options 1 ⟨.Int64, [some (.int 3), none]⟩ .Int64 CastOptions.new =
      some (.ok ⟨.Int64, [some (.int 3), none]⟩) :=
  cast_identity_law 0 ⟨.Int64, [some (.int 3), none]⟩ .Int64 CastOptions.new rfl

/-- C9: for distinct source and target types, a zero-length input yields the
empty array of the target type, and a null-typed input of length N yields
the length-N all-null array of the target type; the zero-length check runs
first, so a zero-length null-typed input also takes the empty-array path. -/
theorem cast_empty_and_null_shortcuts (fuel : Nat) (a : ArrowArray)
    (to_type : DataType) (opts : CastOptions) (hne : a.dtype ≠ to_type) :
    (a.len = 0 →
      cast_with_options (fuel + 1) a to_type opts = some (.ok (new_empty_array to_type))) ∧
    (a.dtype = .Null → a.len ≠ 0 →
      cast_with_options (fuel + 1) a to_type opts =
        some (.ok (new_null_array to_type a.len))) ∧
    (a.dtype = .Null → a.len = 0 →
      cast_with_options (fuel + 1) a to_type opts = some (.ok (new_empty_array to_type))) := by
  refine ⟨fun h0 => ?_, fun hnull hlen => ?_, fun _ h0 => ?_⟩
  · unfold cast_with_options
    simp [hne, h0]
  · have hne2 : DataType.Null ≠ to_type := hnull ▸ hne
    unfold cast_with_options
    simp [hne2, hlen, hnull]
  · unfold cast_with_options
    simp [hne, h0]

/-- C7: a string array none of whose elements parses as a timestamp literal
or as a 64-bit integer, cast to any `Timestamp` target with `safe = true`,
yields `Ok` with the entirely-null array of the target type (same length as
the input), not an error. -/
theorem unparsable_strings_cast_all_null (a : ArrowArray) (u : TimeUnit)
    (tz : Option String) (opts : CastOptions)
    (hd : a.dtype = .Utf8 ∨ a.dtype = .LargeUtf8)
    (hsafe : opts.safe = true)
    (hts : ∀ s, some (.str s) ∈ a.values → parseTimestampString s = none)
    (hint : ∀ s, some (.str s) ∈ a.values → parseI64String s = none) :
    cast_with_options 1 a (.Timestamp u tz) opts =
      some (.ok (new_null_array (.Timestamp u tz) a.len)) := by
  obtain ⟨dt, vals⟩ := a
  have hpe_ts : ∀ ov ∈ vals, parseStringElem parseTimestampString ov = none := by
    intro ov hov
    match ov with
    | none => rfl
    | some (.int _) => rfl
    | some (.str s) => simp [parseStringElem, hts s hov]
  have hpe_int : ∀ ov ∈ vals, parseStringElem parseI64String ov = none := by
    intro ov hov
    match ov with
    | none => rfl
    | some (.int _) => rfl
    | some (.str s) => simp [parseStringElem, hint s hov]
  have hmap_ts := map_eq_replicate_none _ vals hpe_ts
  have hmap_int := map_eq_replicate_none _ vals hpe_int
  rcases hd with hd | hd <;>
  · simp only at hd
    subst hd
    match hv : vals with
    | [] => simp [cast_with_options, new_null_array, new_empty_array, ArrowArray.len]
    | w :: ws =>
      unfold cast_with_options
      simp only [ArrowArray.len, List.length_cons]
      rw [if_neg (by simp), if_neg (by simp), if_neg (by simp),
        if_pos (by rfl : DataType.isStringOrBinary _ = true)]
      unfold stringBranch
      rw [hsafe]
      simp only [arrow_cast_ext, reduceIte, castStringArrayWith, if_pos rfl]
      rw [hmap_ts, hmap_int]
      simp [ArrowArray.nullCount, ArrowArray.len, countP_isNone_replicate_none,
        new_null_array]

theorem unparsable_strings_cast_all_null_witness :
    cast_with_options 1 ⟨.Utf8, [some (.str "abc"), none]⟩
        (.Timestamp .Nanosecond none) CastOptions.new =
      some (.ok (new_null_array (.Timestamp .Nanosecond none) 2)) :=
  unparsable_strings_cast_all_null ⟨.Utf8, [some (.str "abc"), none]⟩ .Nanosecond none
    CastOptions.new (Or.inl rfl) rfl
    (by
      intro s hs
      simp only [List.mem_cons, List.not_mem_nil, or_false, reduceCtorEq,
        Option.some.injEq, Value.str.injEq] at hs
      subst hs
      decide)
    (by
      intro s hs
      simp only [List.mem_cons, List.not_mem_nil, or_false, reduceCtorEq,
        Option.some.injEq, Value.str.injEq] at hs
      subst hs
      decide)

/-- C10: the dispatcher never reaches the panic of the unchecked
`Int64Array` downcast inside `guess_precision_in_array`: the only call site
passes the result of an immediately preceding external cast to `Int64`,
which is always `Int64`-typed, so for every well-formed input array, target
type, configuration and fuel, a completed dispatch is an `ok` or `error`
outcome, never a panic. -/
theorem cast_with_options_never_panics (fuel : Nat) :
    ∀ (a : ArrowArray) (to_type : DataType) (opts : CastOptions) (r : CastOutcome),
      wellFormed a = true → cast_with_options fuel a to_type opts = some r →
      r.isPanic = false := by
  induction fuel with
  | zero =>
    intro a to_type opts r _ h
    exact Option.noConfusion h
  | succ n ih =>
    intro a to_type opts r hwf h
    unfold cast_with_options at h
    split at h
    · cases h
      rfl
    · split at h
      · cases h
        rfl
      · split at h
        · cases h
          rfl
        · split at h
          · exact stringBranch_no_panic _ ih a to_type opts r hwf h
          · split at h
            · split at h
              · exact narrowBranch_no_panic _ _ _ _ _ _ h
              · split at h
                · exact wideBranch_no_panic _ ih _ _ _ _ _ _ hwf h
                · cases h
                  exact outcomeOf_not_panic _
            · cases h
              exact outcomeOf_not_panic _

theorem cast_with_options_never_panics_witness :
    wellFormed ⟨.Int64, [some (.int 3)]⟩ = true ∧
    (CastOutcome.ok ⟨.Timestamp .Second none, [some (.int 3)]⟩).isPanic = false :=
  ⟨by decide,
    cast_with_options_never_panics 1 ⟨.Int64, [some (.int 3)]⟩
      (.Timestamp .Second none) CastOptions.new
      (.ok ⟨.Timestamp .Second none, [some (.int 3)]⟩) (by decide) (by decide)⟩

/-- C5: over an `Int64` array (one whose downcast to `Int64Array` succeeds,
decoding to the slot list `vs`), `guess_precision_in_array` answers "no
guess" when every slot is null (in particular when the array is empty), and
answers `guess_precision x` for the first non-null slot `x` in index order,
whatever the subsequent slots hold. -/
theorem guess_precision_in_array_first_non_null (a : ArrowArray)
    (vs : List (Option Int)) (hvs : downcastInt64 a = some vs) :
    ((∀ x ∈ vs, x = none) → guess_precision_in_array a = some none) ∧
    (∀ (p : List (Option Int)) (x : Int) (rest : List (Option Int)),
      vs = p ++ some x :: rest → (∀ y ∈ p, y = none) →
      guess_precision_in_array a = some (some (guess_precision x))) := by
  constructor
  · intro hall
    have hnil : vs.filterMap id = [] := by
      rw [List.filterMap_eq_nil_iff]
      intro o ho
      simpa using hall o ho
    simp only [guess_precision_in_array, hvs, Option.map_some']
    rw [hnil]
    rfl
  · intro p x rest hsplit hp
    have hpnil : p.filterMap id = [] := by
      rw [List.filterMap_eq_nil_iff]
      intro o ho
      simpa using hp o ho
    have hfm : vs.filterMap id = x :: rest.filterMap id := by
      rw [hsplit, List.filterMap_append, hpnil]
      rfl
    simp only [guess_precision_in_array, hvs, Option.map_some']
    rw [hfm]
    rfl

theorem guess_precision_in_array_first_non_null_witness :
    guess_precision_in_array
        ⟨.Int64, [none, some (.int 7), some (.int 99999999999999999)]⟩ =
      some (some TimeUnit.Second) :=
  ((guess_precision_in_array_first_non_null
      ⟨.Int64, [none, some (.int 7), some (.int 99999999999999999)]⟩
      [none, some 7, some 99999999999999999] (by decide)).2
    [none] 7 [some 99999999999999999] rfl (by decide)).trans (by decide)

/-- C2: with the default configuration, casting an `Int64` array all of
whose elements are `1701325744956` to `Timestamp(Nanosecond, None)` succeeds
and every resulting element is `1701325744956 * 1000000`: the value is
classified as milliseconds and scaled to nanoseconds. -/
theorem cast_int64_guessed_millis_to_nanos (n : Nat) :
    Crate.cast 1 ⟨.Int64, List.replicate n (some (.int 1701325744956))⟩
        (.Timestamp .Nanosecond none) =
      some (.ok ⟨.Timestamp .Nanosecond none,
        List.replicate n (some (.int 1701325744956000000))⟩) := by
  cases n with
  | zero => rfl
  | succ m =>
    have hguess : guess_precision 1701325744956 = TimeUnit.Millisecond := by decide
    have hrescale :
        Option.map (mapIntValue (rescaleTimestamp .Millisecond .Nanosecond))
            (some (Value.int 1701325744956)) = some (Value.int 1701325744956000000) := by
      decide
    unfold Crate.cast cast_with_options
    simp only [List.replicate_succ]
    simp [wideBranch, arrow_cast_ext, guess_precision_in_array, downcastInt64,
      intValuesOf_replicate, ArrowArray.len, CastOptions.new, TimestampCastOptions.default,
      resolveTz, DataType.isStringOrBinary, DataType.isNarrowToTs, DataType.isWideToTs,
      hguess, outcomeOf, hrescale, List.map_replicate, ← List.replicate_succ]

theorem cast_empty_and_null_shortcuts_witness :
    cast_with_options 1 ⟨.Null, [none, none]⟩ .Int64 CastOptions.new =
      some (.ok (new_null_array .Int64 2)) :=
  (cast_empty_and_null_shortcuts 0 ⟨.Null, [none, none]⟩ .Int64 CastOptions.new
    (by decide)).2.1 rfl (by decide)
